import Mathlib

/-!
Shallow embedding of `neutron_lib/api/validators.py`: the schema/validator
composition engine of the repository.  Python values are modelled by `PyVal`,
raised exceptions by `PyExc`, and a validator returns
`Except PyExc (Option String)` — `.ok Option.none` is success, `.ok (some m)`
is a returned failure message, `.error e` is a raised exception.  The global
mutable dictionary `validators` is modelled as an explicit `Registry`
parameter threaded through the functions that consult it; payload mutation by
conversion functions is modelled by returning the updated dictionary.
-/

set_option autoImplicit false
set_option linter.unusedVariables false

namespace NeutronValidators

/-- Python exceptions that the modelled code can raise. -/
inductive PyExc where
  | typeError (msg : String)
  | indexError (msg : String)
  | valueError (msg : String)
  | keyError (msg : String)
  | invalidInput (msg : String)
deriving DecidableEq, Repr

/-- Python values appearing in payloads and constraint parameters.
Dictionaries are association lists with string keys, in insertion order. -/
inductive PyVal where
  | none
  | bool (b : Bool)
  | int (n : Int)
  | str (s : String)
  | list (xs : List PyVal)
  | dict (entries : List (String × PyVal))

-- Python `repr` of a value, for `%s` formatting of non-string values.
mutual

def pyRepr : PyVal → String
  | PyVal.none => "None"
  | PyVal.bool b => if b then "True" else "False"
  | PyVal.int n => toString n
  | PyVal.str s => "'" ++ s ++ "'"
  | PyVal.list xs => "[" ++ String.intercalate (", ") (pyReprList xs) ++ "]"
  | PyVal.dict es => "\x7b" ++ String.intercalate (", ") (pyReprDict es) ++ "\x7d"

def pyReprList : List PyVal → List String
  | [] => []
  | x :: rest => pyRepr x :: pyReprList rest

def pyReprDict : List (String × PyVal) → List String
  | [] => []
  | (k, v) :: rest => ("'" ++ k ++ "': " ++ pyRepr v) :: pyReprDict rest

end

/-- Python `str` of a value, as used by `%s` formatting. -/
def pyStr : PyVal → String
  | PyVal.str s => s
  | v => pyRepr v

-- Python `==` on the modelled values (`1 == True`, lists element-wise).
mutual

def pyEq : PyVal → PyVal → Bool
  | PyVal.none, PyVal.none => true
  | PyVal.bool a, PyVal.bool b => a == b
  | PyVal.bool a, PyVal.int n => (if a then (1 : Int) else 0) == n
  | PyVal.int n, PyVal.bool a => n == (if a then (1 : Int) else 0)
  | PyVal.int a, PyVal.int b => a == b
  | PyVal.str a, PyVal.str b => a == b
  | PyVal.list a, PyVal.list b => pyEqList a b
  | PyVal.dict a, PyVal.dict b => pyEqDict a b
  | _, _ => false

def pyEqList : List PyVal → List PyVal → Bool
  | [], [] => true
  | a :: as, b :: bs => pyEq a b && pyEqList as bs
  | _, _ => false

def pyEqDict : List (String × PyVal) → List (String × PyVal) → Bool
  | [], [] => true
  | (k, a) :: as, (k', b) :: bs => k == k' && pyEq a b && pyEqDict as bs
  | _, _ => false

end

/-- Python truthiness of a value. -/
def pyTruthy : PyVal → Bool
  | PyVal.none => false
  | PyVal.bool b => b
  | PyVal.int n => n != 0
  | PyVal.str s => s != ""
  | PyVal.list xs => !xs.isEmpty
  | PyVal.dict es => !es.isEmpty

/-- Python type name, for exception messages. -/
def pyTypeName : PyVal → String
  | PyVal.none => "NoneType"
  | PyVal.bool _ => "bool"
  | PyVal.int _ => "int"
  | PyVal.str _ => "str"
  | PyVal.list _ => "list"
  | PyVal.dict _ => "dict"

/-- Hashability: `list` and `dict` values cannot be put in a Python `set`. -/
def pyHashable : PyVal → Bool
  | PyVal.list _ => false
  | PyVal.dict _ => false
  | _ => true

/-- Membership test by Python equality (used for `set` construction). -/
def pyMemB (x : PyVal) (l : List PyVal) : Bool :=
  l.any (fun y => pyEq x y)

/-- De-duplication by Python equality; only its length is observed
(`len(set(data))`). -/
def dedupPy : List PyVal → List PyVal
  | [] => []
  | x :: rest => if pyMemB x (dedupPy rest) then dedupPy rest else x :: dedupPy rest

/-- `set(xs)`: raises `TypeError` on unhashable elements, otherwise the set
of distinct elements. -/
def pySet (xs : List PyVal) : Except PyExc (List PyVal) :=
  match xs.find? (fun y => !pyHashable y) with
  | some y => Except.error (PyExc.typeError ("unhashable type: '" ++ pyTypeName y ++ "'"))
  | Option.none => Except.ok (dedupPy xs)

/-- `', '.join(xs)`: raises `TypeError` at the first non-string element. -/
def pyJoinAux : Nat → List PyVal → Except PyExc (List String)
  | _, [] => Except.ok []
  | i, PyVal.str s :: rest =>
      match pyJoinAux (i + 1) rest with
      | Except.ok ss => Except.ok (s :: ss)
      | Except.error e => Except.error e
  | i, _ :: _ =>
      Except.error (PyExc.typeError ("sequence item " ++ toString i ++ ": expected str instance"))

def pyJoinComma (xs : List PyVal) : Except PyExc String :=
  match pyJoinAux 0 xs with
  | Except.ok ss => Except.ok (String.intercalate (", ") ss)
  | Except.error e => Except.error e

/-- Python `int(v)` for the modelled values; `Option.none` when Python would
raise `ValueError`/`TypeError` (both are caught by the callers modelled here). -/
def strToInt? (s : String) : Option Int :=
  let digitsVal : List Char → Int :=
    fun cs => cs.foldl (fun acc c => acc * 10 + ((c.toNat : Int) - 48)) 0
  match s.toList with
  | '-' :: rest =>
      if rest ≠ [] ∧ rest.all Char.isDigit then some (-(digitsVal rest)) else Option.none
  | cs => if cs ≠ [] ∧ cs.all Char.isDigit then some (digitsVal cs) else Option.none

def pyToInt : PyVal → Option Int
  | PyVal.int n => some n
  | PyVal.bool b => some (if b then 1 else 0)
  | PyVal.str s => strToInt? s
  | _ => Option.none

/-- `v[i]` subscripting, as used by `validate_range` on `valid_values`. -/
def pyGetItem (v : PyVal) (i : Nat) : Except PyExc PyVal :=
  match v with
  | PyVal.list xs =>
      match xs.get? i with
      | some x => Except.ok x
      | Option.none => Except.error (PyExc.indexError ("list index out of range"))
  | PyVal.str s =>
      match s.toList.get? i with
      | some c => Except.ok (PyVal.str (String.mk [c]))
      | Option.none => Except.error (PyExc.indexError ("string index out of range"))
  | PyVal.dict _ => Except.error (PyExc.keyError (toString i))
  | w => Except.error (PyExc.typeError ("'" ++ pyTypeName w ++ "' object is not subscriptable"))

/-- Result type of a validator call: success, returned message, or raise. -/
abbrev VRes := Except PyExc (Option String)

/-- A validator function: `(data, constraint parameter) -> VRes`. -/
abbrev Validator := PyVal → PyVal → VRes

/-- A registered validator together with its `inspect.getsource` text, which
`add_validator` compares on re-registration. -/
structure PyFunc where
  src : String
  fn : Validator

/-- Association-list primitives shared by payload dictionaries, key specs,
schemas and the registry (Python dicts, insertion ordered, first match). -/
def lookupS {α : Type} : List (String × α) → String → Option α
  | [], _ => Option.none
  | (k', v) :: rest, k => if k' = k then some v else lookupS rest k

def setS {α : Type} : List (String × α) → String → α → List (String × α)
  | [], k, v => [(k, v)]
  | (k', v') :: rest, k, v =>
      if k' = k then (k, v) :: rest else (k', v') :: setS rest k v

def keysS {α : Type} (l : List (String × α)) : List String :=
  l.map Prod.fst

def smem : List String → String → Bool
  | [], _ => false
  | k' :: rest, k => if k' = k then true else smem rest k

/-- `s.startswith(pat)` over character lists (kernel-reducible). -/
def charStartsWith : List Char → List Char → Bool
  | _, [] => true
  | [], _ :: _ => false
  | c :: cs, p :: ps => c == p && charStartsWith cs ps

def strStartsWith (s pat : String) : Bool :=
  charStartsWith s.toList pat.toList

/-- Python `str.split(sep)` for a single-character separator. -/
def splitOnChar (sep : Char) : List Char → List (List Char)
  | [] => [[]]
  | c :: rest =>
    match splitOnChar sep rest with
    | [] => [[]]
    | g :: gs => if c = sep then [] :: g :: gs else (c :: g) :: gs

def pySplit (s : String) (sep : Char) : List String :=
  (splitOnChar sep s.toList).map (fun cs => String.mk cs)

/-- A payload dictionary. -/
abbrev Dict := List (String × PyVal)

/-- `data.get(key)`: `None` when the key is absent. -/
def dgetD (d : Dict) (k : String) : PyVal :=
  (lookupS d k).getD PyVal.none

/-- A value in a key-spec dictionary: either a plain parameter value or a
conversion function (the value of a `convert_to` entry). -/
inductive KVal where
  | pv (v : PyVal)
  | fn (f : PyVal → PyVal)

/-- A key spec (`\x7brequired: ..., convert_to: ..., type:<tag>: params\x7d`),
insertion ordered as the code iterates over its items. -/
abbrev KeySpec := List (String × KVal)

/-- A schema: attribute name to key spec, insertion ordered. -/
abbrev Schema := List (String × KeySpec)

/-- The `validators` registry: canonical tag to registered function. -/
abbrev Registry := List (String × PyFunc)

/-- `validate_string` (validators.py:183): data must be a string, optionally
capped in length. -/
def validate_string (data maxLen : PyVal) : VRes :=
  match data with
  | PyVal.str s =>
      match maxLen with
      | PyVal.none => Except.ok Option.none
      | PyVal.int m =>
          if (s.length : Int) > m then
            Except.ok (some ("'" ++ s ++ "' exceeds maximum length of " ++ toString m))
          else Except.ok Option.none
      | PyVal.bool b =>
          if (s.length : Int) > (if b then 1 else 0) then
            Except.ok (some ("'" ++ s ++ "' exceeds maximum length of " ++
              (if b then "1" else "0")))
          else Except.ok Option.none
      | w =>
          Except.error (PyExc.typeError
            ("'>' not supported between instances of 'int' and '" ++ pyTypeName w ++ "'"))
  | v => Except.ok (some ("'" ++ pyStr v ++ "' is not a valid string"))

/-- `validate_string_or_none` (validators.py:171). -/
def validate_string_or_none (data maxLen : PyVal) : VRes :=
  match data with
  | PyVal.none => Except.ok Option.none
  | _ => validate_string data maxLen

/-- `validate_no_whitespace` (validators.py:306): returns the data, raising
`InvalidInput` when it contains whitespace (`re.search` raises `TypeError`
on non-string input). -/
def validate_no_whitespace (data : PyVal) : Except PyExc PyVal :=
  match data with
  | PyVal.str s =>
      if s.toList.any Char.isWhitespace then
        Except.error (PyExc.invalidInput ("'" ++ s ++ "' contains whitespace"))
      else Except.ok data
  | _ => Except.error (PyExc.typeError ("expected string or bytes-like object"))

/-- `validate_range` (validators.py:271): subscripts `valid_values` at 0 and 1
before looking at `data`; `int(data)` failures are caught and returned as a
message; bounds are inclusive and a `None` bound (`UNLIMITED`) is skipped. -/
def validate_range (data validValues : PyVal) : VRes := do
  let minValue ← pyGetItem validValues 0
  let maxValue ← pyGetItem validValues 1
  match pyToInt data with
  | Option.none => return some ("'" ++ pyStr data ++ "' is not an integer")
  | some n =>
    match minValue with
    | PyVal.none => pure ()
    | PyVal.int m =>
        if n < m then
          return some ("'" ++ toString n ++ "' is too small - must be at least '" ++
            toString m ++ "'")
    | PyVal.bool b =>
        if n < (if b then 1 else 0) then
          return some ("'" ++ toString n ++ "' is too small - must be at least '" ++
            (if b then "1" else "0") ++ "'")
    | w =>
        throw (PyExc.typeError
          ("'<' not supported between instances of 'int' and '" ++ pyTypeName w ++ "'"))
    match maxValue with
    | PyVal.none => return Option.none
    | PyVal.int m =>
        if n > m then
          return some ("'" ++ toString n ++ "' is too large - must be no larger than '" ++
            toString m ++ "'")
        else return Option.none
    | PyVal.bool b =>
        if n > (if b then 1 else 0) then
          return some ("'" ++ toString n ++ "' is too large - must be no larger than '" ++
            (if b then "1" else "0") ++ "'")
        else return Option.none
    | w =>
        throw (PyExc.typeError
          ("'>' not supported between instances of 'int' and '" ++ pyTypeName w ++ "'"))

/-- Modelled from the spec: `uuidutils.is_uuid_like` (oslo_utils) is not part
of this repository's sources; the spec describes it as a "looks like a UUID"
shape test accepting any syntactically compatible representation.  Modelled
as: a string whose lower-cased form with hyphens removed is 32 hex digits. -/
def is_uuid_like (v : PyVal) : Bool :=
  match v with
  | PyVal.str s =>
      let t := (s.toList.map Char.toLower).filter (fun c => c != '-')
      t.length == 32 && t.all (fun c => c.isDigit || ('a' ≤ c && c ≤ 'f'))
  | _ => false

/-- `validate_uuid` (validators.py:668). -/
def validate_uuid (data validValues : PyVal) : VRes :=
  if is_uuid_like data then Except.ok Option.none
  else Except.ok (some ("'" ++ pyStr data ++ "' is not a valid UUID"))

/-- `_validate_list_of_items` (validators.py:81): the element loop. -/
def listLoop (itemV : PyVal → VRes) : List PyVal → VRes
  | [] => Except.ok Option.none
  | x :: rest =>
    match itemV x with
    | Except.error e => Except.error e
    | Except.ok (some m) => Except.ok (some m)
    | Except.ok Option.none => listLoop itemV rest

/-- `_validate_list_of_items` (validators.py:81): not-a-list check, duplicate
check via `len(set(data)) != len(data)` (with `', '.join(data)` in the
message), then the first element failure in order. -/
def listOfItems (itemV : PyVal → VRes) (data : PyVal) : VRes :=
  match data with
  | PyVal.list xs =>
    match pySet xs with
    | Except.error e => Except.error e
    | Except.ok s =>
      if s.length ≠ xs.length then
        match pyJoinComma xs with
        | Except.error e => Except.error e
        | Except.ok j => Except.ok (some ("Duplicate items in the list: '" ++ j ++ "'"))
      else listLoop itemV xs
  | v => Except.ok (some ("'" ++ pyStr v ++ "' is not a list"))

/-- `validate_uuid_list` (validators.py:699), i.e.
`functools.partial(_validate_list_of_items, validate_uuid)`. -/
def validate_uuid_list (data validValues : PyVal) : VRes :=
  listOfItems (fun item => validate_uuid item validValues) data

/-- `validate_list_of_unique_strings` (validators.py:209). -/
def validate_list_of_unique_strings (data maxLen : PyVal) : VRes :=
  listOfItems (fun item => validate_string item maxLen) data

/-- Modelled from the spec: `netutils.is_valid_port` (oslo_utils) is not part
of this repository's sources; per the code's docstring a port is "an int
between 0 and 65535", so a string is a valid port when it parses as an
integer in that range. -/
def is_valid_port (p : String) : Bool :=
  match strToInt? p with
  | some v => decide (0 ≤ v) && decide (v ≤ 65535)
  | Option.none => false

/-- Python string `<`: lexicographic over code points, a proper suffix makes
the shorter string smaller. -/
def charListLt : List Char → List Char → Bool
  | [], [] => false
  | [], _ :: _ => true
  | _ :: _, [] => false
  | a :: as, b :: bs => if a < b then true else if b < a then false else charListLt as bs

def pyStrLt (a b : String) : Bool :=
  charListLt a.toList b.toList

/-- The per-port loop of `validate_port_range_or_none` (validators.py:861). -/
def checkPorts : List String → Option String
  | [] => Option.none
  | p :: rest =>
      if p.length = 0 then some ("Port range must be two integers separated by a colon.")
      else if !is_valid_port p then some ("Invalid port: " ++ p ++ ".")
      else checkPorts rest

/-- `validate_port_range_or_none` (validators.py:841).  Note that the final
comparison `ports[0] > ports[1]` in the source compares the two substrings as
Python strings (lexicographically), not as integers. -/
def validate_port_range_or_none (data validValues : PyVal) : VRes :=
  match data with
  | PyVal.none => Except.ok Option.none
  | PyVal.str s =>
      let ports := pySplit s ':'
      if ports.length > 2 then
        Except.ok (some ("Port range must be two integers separated by a colon."))
      else
        match checkPorts ports with
        | some m => Except.ok (some m)
        | Option.none =>
            if ports.length > 1 && pyStrLt (ports.getD 1 ("")) (ports.getD 0 ("")) then
              Except.ok (some ("First port in a port range must be lower than the second port."))
            else Except.ok Option.none
  | _ => Except.ok (some ("Port range must be a string."))

/-- `_to_validation_type` (validators.py:973). -/
def _to_validation_type (validationType : String) : String :=
  if strStartsWith validationType ("type:") then validationType
  else "type:" ++ validationType

/-- `get_validator` (validators.py:979). -/
def get_validator (reg : Registry) (validationType : String) (default : Option PyFunc) :
    Option PyFunc :=
  match lookupS reg (_to_validation_type validationType) with
  | some f => some f
  | Option.none => default

/-- `add_validator` (validators.py:990): normalizes the tag; an existing
binding is compared by `inspect.getsource` — identical source is a no-op,
a different source raises `KeyError`; otherwise the validator is inserted. -/
def add_validator (reg : Registry) (validationType : String) (validator : PyFunc) :
    Except PyExc Registry :=
  let key := _to_validation_type validationType
  match lookupS reg key with
  | some existing =>
      if validator.src ≠ existing.src then
        Except.error (PyExc.keyError
          ("Validator type " ++ validationType ++ " is already defined"))
      else Except.ok reg
  | Option.none => Except.ok (reg ++ [(key, validator)])

/-- Key-set rendering of `%s` on a Python `set` of strings in the messages of
`_verify_dict_keys`.  CPython's set iteration order is hash-dependent; the
model renders the distinct keys in first-occurrence order. -/
def distinctKeys : List String → List String
  | [] => []
  | k :: rest => if smem rest k then distinctKeys rest else k :: distinctKeys rest

def renderStrSet (ks : List String) : String :=
  "\x7b" ++ String.intercalate (", ") ((distinctKeys ks).map (fun k => "'" ++ k ++ "'")) ++ "\x7d"

def renderStrList (ks : List String) : String :=
  "[" ++ String.intercalate (", ") (ks.map (fun k => "'" ++ k ++ "'")) ++ "]"

/-- Set equality of key collections (`expected_keys.__eq__(provided_keys)`). -/
def sameKeySet (a b : List String) : Bool :=
  a.all (fun k => smem b k) && b.all (fun k => smem a k)

/-- `_verify_dict_keys` (validators.py:39): `strict` requires the key sets to
be equal, otherwise the expected keys must be a subset of the provided ones. -/
def verifyDictKeys (expectedKeys : List String) (targetDict : PyVal) (strict : Bool) :
    Option String :=
  match targetDict with
  | PyVal.dict d =>
      let provided := keysS d
      let pass := if strict then sameKeySet expectedKeys provided
                  else expectedKeys.all (fun k => smem provided k)
      if pass then Option.none
      else some ("Validation of dictionary's keys failed. Expected keys: " ++
        renderStrSet expectedKeys ++ " Provided keys: " ++ renderStrSet provided)
  | v =>
      some ("Invalid input. '" ++ pyStr v ++ "' must be a dictionary with keys: " ++
        renderStrList expectedKeys)

/-- The first `type:`-prefixed entry of a key spec, as found by the item loop
of `_validate_dict_item` (validators.py:719). -/
def firstType : KeySpec → Option (String × KVal)
  | [] => Option.none
  | (k, v) :: rest => if strStartsWith k ("type:") then some (k, v) else firstType rest

/-- The conversion function declared by a key spec, when `convert_to` is bound
to a function. -/
def specConv (spec : KeySpec) : Option (PyVal → PyVal) :=
  match lookupS spec ("convert_to") with
  | some (KVal.fn f) => some f
  | _ => Option.none

/-- The constraint parameter passed to the dispatched validator.  A `type:`
entry whose value is a function object is outside the modelled value universe
and is passed as `None`. -/
def kparam : KVal → PyVal
  | KVal.pv v => v
  | KVal.fn _ => PyVal.none

/-- The conversion step of `_validate_dict_item` (validators.py:711):
`data[key] = conv_func(data.get(key))` when a truthy `convert_to` is present
(a truthy non-callable raises `TypeError` when called). -/
def applyConvStep (spec : KeySpec) (key : String) (d : Dict) : Except PyExc Dict :=
  match lookupS spec ("convert_to") with
  | Option.none => Except.ok d
  | some (KVal.fn f) => Except.ok (setS d key (f (dgetD d key)))
  | some (KVal.pv w) =>
      if pyTruthy w then
        Except.error (PyExc.typeError ("'" ++ pyTypeName w ++ "' object is not callable"))
      else Except.ok d

/-- `_validate_dict_item` (validators.py:710): apply the conversion, find the
first `type:` entry, resolve its validator in the registry (an unregistered
tag is returned as a message), and run it on the (possibly converted) value.
Returns the updated payload dictionary together with the result. -/
def validateDictItem (reg : Registry) (key : String) (spec : KeySpec) (d : Dict) :
    Dict × VRes :=
  match applyConvStep spec key d with
  | Except.error e => (d, Except.error e)
  | Except.ok d1 =>
    match firstType spec with
    | Option.none => (d1, Except.ok Option.none)
    | some (k, kv) =>
      match lookupS reg k with
      | Option.none => (d1, Except.ok (some ("Validator '" ++ k ++ "' does not exist.")))
      | some pf => (d1, pf.fn (dgetD d1 key) (kparam kv))

/-- The conversion applied to a single value, for stating what
`_validate_dict_item` computes (error when `convert_to` is truthy but not a
function). -/
def convRes (spec : KeySpec) (v : PyVal) : Except PyExc PyVal :=
  match lookupS spec ("convert_to") with
  | Option.none => Except.ok v
  | some (KVal.fn f) => Except.ok (f v)
  | some (KVal.pv w) =>
      if pyTruthy w then
        Except.error (PyExc.typeError ("'" ++ pyTypeName w ++ "' object is not callable"))
      else Except.ok v

/-- The result component of `_validate_dict_item` as a function of the value
stored at the key. -/
def itemRes (reg : Registry) (spec : KeySpec) (v : PyVal) : VRes :=
  match convRes spec v with
  | Except.error e => Except.error e
  | Except.ok v1 =>
    match firstType spec with
    | Option.none => Except.ok Option.none
    | some (k, kv) =>
      match lookupS reg k with
      | Option.none => Except.ok (some ("Validator '" ++ k ++ "' does not exist."))
      | some pf => pf.fn v1 (kparam kv)

/-- Truthiness of a key spec's `required` entry (`spec.get('required')`). -/
def specTruthyRequired (spec : KeySpec) : Bool :=
  match lookupS spec ("required") with
  | some (KVal.pv v) => pyTruthy v
  | some (KVal.fn _) => true
  | Option.none => false

/-- `required_keys` of `validate_dict` (validators.py:754). -/
def requiredKeys (s : Schema) : List String :=
  (s.filter (fun ks => specTruthyRequired ks.2)).map Prod.fst

/-- The required-keys check of `validate_dict` (validators.py:757): subset
mode of `_verify_dict_keys`, skipped when no key is required. -/
def requiredCheck (s : Schema) (d : Dict) : Option String :=
  let req := requiredKeys s
  if req.isEmpty then Option.none else verifyDictKeys req (PyVal.dict d) false

/-- The unexpected-keys check of `validate_dict` (validators.py:763). -/
def unexpectedCheck (s : Schema) (d : Dict) : Option String :=
  let unexpected := (keysS d).filter (fun k => !smem (keysS s) k)
  if unexpected.isEmpty then Option.none
  else some ("Unexpected keys supplied: " ++ String.intercalate (", ") unexpected)

/-- `[(k, v) for k, v in key_specs.items() if k in data]` (validators.py:771). -/
def dictItems (s : Schema) (d : Dict) : List (String × KeySpec) :=
  s.filter (fun ks => (lookupS d ks.1).isSome)

/-- The per-key loop of `validate_dict` (validators.py:771): threads the
mutated payload and stops at the first non-empty message. -/
def validateItemsLoop (reg : Registry) :
    List (String × KeySpec) → Dict → Except PyExc (Dict × Option String)
  | [], d => Except.ok (d, Option.none)
  | (k, spec) :: rest, d =>
    match validateDictItem reg k spec d with
    | (_, Except.error e) => Except.error e
    | (d1, Except.ok (some m)) => Except.ok (d1, some m)
    | (d1, Except.ok Option.none) => validateItemsLoop reg rest d1

/-- `validate_dict` (validators.py:735): type check, empty-schema short
circuit, required keys, unexpected keys, then per-key conversion and
validation.  Returns the (possibly mutated) payload with the result. -/
def validateDict (reg : Registry) (data : PyVal) (keySpecs : Schema) :
    Except PyExc (PyVal × Option String) :=
  match data with
  | PyVal.dict d =>
    if keySpecs.isEmpty then Except.ok (PyVal.dict d, Option.none)
    else
      match requiredCheck keySpecs d with
      | some m => Except.ok (PyVal.dict d, some m)
      | Option.none =>
        match unexpectedCheck keySpecs d with
        | some m => Except.ok (PyVal.dict d, some m)
        | Option.none =>
          match validateItemsLoop reg (dictItems keySpecs d) d with
          | Except.error e => Except.error e
          | Except.ok (d1, r) => Except.ok (PyVal.dict d1, r)
  | v => Except.ok (v, some ("'" ++ pyStr v ++ "' is not a dictionary"))

/-- A concrete sample of the built-in `validators` dictionary
(validators.py:935), restricted to the non-recursive entries the concrete
instances below exercise; the `src` fields stand for `inspect.getsource`. -/
def builtinRegSample : Registry :=
  [("type:uuid", ⟨"def validate_uuid(data, valid_values=None):", validate_uuid⟩),
   ("type:uuid_list", ⟨"def validate_uuid_list(data, valid_values=None):", validate_uuid_list⟩),
   ("type:string", ⟨"def validate_string(data, max_len=None):", validate_string⟩),
   ("type:range", ⟨"def validate_range(data, valid_values=None):", validate_range⟩),
   ("type:port_range", ⟨"def validate_port_range_or_none(data, valid_values=None):",
     validate_port_range_or_none⟩),
   ("type:list_of_unique_strings", ⟨"def validate_list_of_unique_strings(data, max_len=None):",
     validate_list_of_unique_strings⟩)]

/-! Association-list lemmas. -/

theorem lookupS_setS_self {α : Type} (l : List (String × α)) (k : String) (v : α) :
    lookupS (setS l k v) k = some v := by
  induction l with
  | nil => simp [setS, lookupS]
  | cons p rest ih =>
    obtain ⟨k', v'⟩ := p
    by_cases h : k' = k
    · subst h; simp [setS, lookupS]
    · simp [setS, lookupS, h, ih]

theorem lookupS_setS_ne {α : Type} (l : List (String × α)) (k k2 : String) (v : α)
    (h : k2 ≠ k) : lookupS (setS l k v) k2 = lookupS l k2 := by
  induction l with
  | nil => simp [setS, lookupS, Ne.symm h]
  | cons p rest ih =>
    obtain ⟨k', v'⟩ := p
    by_cases hk : k' = k
    · subst hk; simp [setS, lookupS, Ne.symm h]
    · simp [setS, lookupS, hk, ih]

theorem smem_iff (l : List String) (k : String) : smem l k = true ↔ k ∈ l := by
  induction l with
  | nil => simp [smem]
  | cons k' rest ih =>
    by_cases h : k' = k
    · subst h; simp [smem]
    · simp [smem, h, ih, Ne.symm h]

theorem lookupS_isSome_iff {α : Type} (l : List (String × α)) (k : String) :
    (lookupS l k).isSome = true ↔ k ∈ keysS l := by
  induction l with
  | nil => simp [lookupS, keysS]
  | cons p rest ih =>
    obtain ⟨k', v'⟩ := p
    have hks : keysS ((k', v') :: rest) = k' :: keysS rest := rfl
    rw [hks]
    by_cases h : k' = k
    · subst h; simp [lookupS]
    · rw [lookupS, if_neg h]
      simp [ih, List.mem_cons, Ne.symm h]

theorem lookupS_eq_none_iff {α : Type} (l : List (String × α)) (k : String) :
    lookupS l k = Option.none ↔ k ∉ keysS l := by
  rw [← lookupS_isSome_iff]
  cases lookupS l k <;> simp

theorem lookupS_append_single {α : Type} (l : List (String × α)) (k : String) (v : α)
    (h : lookupS l k = Option.none) : lookupS (l ++ [(k, v)]) k = some v := by
  induction l with
  | nil => simp [lookupS]
  | cons p rest ih =>
    obtain ⟨k', v'⟩ := p
    by_cases hk : k' = k
    · simp [lookupS, hk] at h
    · simp only [List.cons_append, lookupS, if_neg hk] at h ⊢
      exact ih h

theorem dgetD_setS_self (d : Dict) (k : String) (v : PyVal) :
    dgetD (setS d k v) k = v := by
  simp [dgetD, lookupS_setS_self]

theorem dgetD_setS_ne (d : Dict) (k k2 : String) (v : PyVal) (h : k2 ≠ k) :
    dgetD (setS d k v) k2 = dgetD d k2 := by
  simp [dgetD, lookupS_setS_ne _ _ _ _ h]

/-! Characterizations of `_validate_dict_item`. -/

theorem validateDictItem_fst (reg : Registry) (key : String) (spec : KeySpec) (d : Dict) :
    (validateDictItem reg key spec d).1 =
      match specConv spec with
      | some f => setS d key (f (dgetD d key))
      | Option.none => d := by
  cases hc : lookupS spec ("convert_to") with
  | none =>
    cases hf : firstType spec with
    | none => simp [validateDictItem, applyConvStep, specConv, hc, hf]
    | some p =>
      obtain ⟨k, kv⟩ := p
      cases hr : lookupS reg k <;>
        simp [validateDictItem, applyConvStep, specConv, hc, hf, hr]
  | some kv =>
    cases kv with
    | fn f =>
      cases hf : firstType spec with
      | none => simp [validateDictItem, applyConvStep, specConv, hc, hf]
      | some p =>
        obtain ⟨k, kv'⟩ := p
        cases hr : lookupS reg k <;>
          simp [validateDictItem, applyConvStep, specConv, hc, hf, hr]
    | pv w =>
      by_cases hw : pyTruthy w
      · simp [validateDictItem, applyConvStep, specConv, hc, hw]
      · cases hf : firstType spec with
        | none => simp [validateDictItem, applyConvStep, specConv, hc, hf, hw]
        | some p =>
          obtain ⟨k, kv'⟩ := p
          cases hr : lookupS reg k <;>
            simp [validateDictItem, applyConvStep, specConv, hc, hf, hr, hw]

theorem validateDictItem_snd (reg : Registry) (key : String) (spec : KeySpec) (d : Dict) :
    (validateDictItem reg key spec d).2 = itemRes reg spec (dgetD d key) := by
  cases hc : lookupS spec ("convert_to") with
  | none =>
    cases hf : firstType spec with
    | none => simp [validateDictItem, applyConvStep, itemRes, convRes, hc, hf]
    | some p =>
      obtain ⟨k, kv⟩ := p
      cases hr : lookupS reg k <;>
        simp [validateDictItem, applyConvStep, itemRes, convRes, hc, hf, hr]
  | some kv =>
    cases kv with
    | fn f =>
      cases hf : firstType spec with
      | none => simp [validateDictItem, applyConvStep, itemRes, convRes, hc, hf]
      | some p =>
        obtain ⟨k, kv'⟩ := p
        cases hr : lookupS reg k <;>
          simp [validateDictItem, applyConvStep, itemRes, convRes, hc, hf, hr,
            dgetD_setS_self]
    | pv w =>
      by_cases hw : pyTruthy w
      · simp [validateDictItem, applyConvStep, itemRes, convRes, hc, hw]
      · cases hf : firstType spec with
        | none => simp [validateDictItem, applyConvStep, itemRes, convRes, hc, hf, hw]
        | some p =>
          obtain ⟨k, kv'⟩ := p
          cases hr : lookupS reg k <;>
            simp [validateDictItem, applyConvStep, itemRes, convRes, hc, hf, hr, hw]

/-! The per-key loop: success characterization and final payload state. -/

theorem loop_success_iff (reg : Registry) (items : List (String × KeySpec)) (d : Dict)
    (hnd : (items.map Prod.fst).Nodup) :
    (∃ d1, validateItemsLoop reg items d = Except.ok (d1, Option.none)) ↔
      ∀ p ∈ items, (validateDictItem reg p.1 p.2 d).2 = Except.ok Option.none := by
  induction items generalizing d with
  | nil => simp [validateItemsLoop]
  | cons q rest ih =>
    obtain ⟨k, spec⟩ := q
    have hk_not : k ∉ rest.map Prod.fst := (List.nodup_cons.mp hnd).1
    have hnd' : (rest.map Prod.fst).Nodup := (List.nodup_cons.mp hnd).2
    cases hit : validateDictItem reg k spec d with
    | mk d1 r =>
      have hsnd : (validateDictItem reg k spec d).2 = r := by rw [hit]
      have hfst : (validateDictItem reg k spec d).1 = d1 := by rw [hit]
      have hsame : ∀ p ∈ rest, (validateDictItem reg p.1 p.2 d1).2 =
          (validateDictItem reg p.1 p.2 d).2 := by
        intro p hp
        have hne : p.1 ≠ k := by
          intro hh
          exact hk_not (hh ▸ List.mem_map_of_mem Prod.fst hp)
        have hval : dgetD d1 p.1 = dgetD d p.1 := by
          rw [← hfst, validateDictItem_fst]
          cases specConv spec with
          | none => rfl
          | some f => exact dgetD_setS_ne _ _ _ _ hne
        rw [validateDictItem_snd, validateDictItem_snd, hval]
      cases r with
      | error e =>
        constructor
        · rintro ⟨d2, hd2⟩
          simp only [validateItemsLoop, hit] at hd2
          exact absurd hd2 (by simp)
        · intro hall
          have := hall (k, spec) (List.mem_cons_self _ _)
          rw [hsnd] at this
          exact absurd this (by simp)
      | ok m =>
        cases m with
        | some msg =>
          constructor
          · rintro ⟨d2, hd2⟩
            simp only [validateItemsLoop, hit] at hd2
            exact absurd hd2 (by simp)
          · intro hall
            have := hall (k, spec) (List.mem_cons_self _ _)
            rw [hsnd] at this
            exact absurd this (by simp)
        | none =>
          have hstep : validateItemsLoop reg ((k, spec) :: rest) d =
              validateItemsLoop reg rest d1 := by
            simp only [validateItemsLoop, hit]
          rw [hstep]
          constructor
          · rintro ⟨d2, hd2⟩
            intro p hp
            rcases List.mem_cons.mp hp with hph | hpr
            · rw [hph]; exact hsnd
            · rw [← hsame p hpr]
              exact (ih d1 hnd').mp ⟨d2, hd2⟩ p hpr
          · intro hall
            apply (ih d1 hnd').mpr
            intro p hp
            rw [hsame p hp]
            exact hall p (List.mem_cons_of_mem _ hp)

/-- The conversion the loop applies at a given payload key: the `specConv` of
the first item bearing that key. -/
def itemsConv : List (String × KeySpec) → String → Option (PyVal → PyVal)
  | [], _ => Option.none
  | (k, spec) :: rest, key => if k = key then specConv spec else itemsConv rest key

theorem itemsConv_cons_self (k : String) (spec : KeySpec) (rest : List (String × KeySpec)) :
    itemsConv ((k, spec) :: rest) k = specConv spec := by
  simp [itemsConv]

theorem itemsConv_cons_ne (k key : String) (spec : KeySpec)
    (rest : List (String × KeySpec)) (h : k ≠ key) :
    itemsConv ((k, spec) :: rest) key = itemsConv rest key := by
  simp [itemsConv, h]

theorem itemsConv_not_mem (items : List (String × KeySpec)) (k : String)
    (h : k ∉ items.map Prod.fst) : itemsConv items k = Option.none := by
  induction items with
  | nil => rfl
  | cons q rest ih =>
    obtain ⟨k', spec'⟩ := q
    have hne : k' ≠ k := by
      intro hh
      exact h (by simp [hh])
    rw [itemsConv_cons_ne _ _ _ _ hne]
    exact ih (fun hh => h (by simp [hh]))

theorem loop_final (reg : Registry) (items : List (String × KeySpec)) (d d1 : Dict)
    (hnd : (items.map Prod.fst).Nodup)
    (h : validateItemsLoop reg items d = Except.ok (d1, Option.none)) :
    ∀ key : String,
      (∀ f, itemsConv items key = some f → lookupS d1 key = some (f (dgetD d key))) ∧
      (itemsConv items key = Option.none → lookupS d1 key = lookupS d key) := by
  induction items generalizing d with
  | nil =>
    intro key
    simp only [validateItemsLoop] at h
    have hd : d1 = d := by
      cases h; rfl
    subst hd
    constructor
    · intro f hf; exact absurd hf (by simp [itemsConv])
    · intro _; rfl
  | cons q rest ih =>
    obtain ⟨k, spec⟩ := q
    have hk_not : k ∉ rest.map Prod.fst := (List.nodup_cons.mp hnd).1
    have hnd' : (rest.map Prod.fst).Nodup := (List.nodup_cons.mp hnd).2
    cases hit : validateDictItem reg k spec d with
    | mk dmid r =>
      have hfst : (validateDictItem reg k spec d).1 = dmid := by rw [hit]
      cases r with
      | error e =>
        simp only [validateItemsLoop, hit] at h
        exact absurd h (by simp)
      | ok m =>
        cases m with
        | some msg =>
          simp only [validateItemsLoop, hit] at h
          exact absurd h (by simp)
        | none =>
          have hstep : validateItemsLoop reg ((k, spec) :: rest) d =
              validateItemsLoop reg rest dmid := by
            simp only [validateItemsLoop, hit]
          rw [hstep] at h
          have hmid : dmid = match specConv spec with
              | some f => setS d k (f (dgetD d k))
              | Option.none => d := by
            rw [← hfst, validateDictItem_fst]
          intro key
          have hrest := ih dmid hnd' h key
          by_cases hkey : k = key
          · subst hkey
            have hconv_rest : itemsConv rest k = Option.none :=
              itemsConv_not_mem rest k hk_not
            have hkeep : lookupS d1 k = lookupS dmid k := by
              rcases hrest with ⟨_, hnone⟩
              exact hnone hconv_rest
            rw [itemsConv_cons_self]
            constructor
            · intro f hf
              rw [hkeep, hmid, hf, lookupS_setS_self]
            · intro hf
              rw [hkeep, hmid, hf]
          · have hmid_key : lookupS dmid key = lookupS d key := by
              rw [hmid]
              cases specConv spec with
              | none => rfl
              | some f => exact lookupS_setS_ne _ _ _ _ (Ne.symm hkey)
            have hval_key : dgetD dmid key = dgetD d key := by
              simp [dgetD, hmid_key]
            rw [itemsConv_cons_ne _ _ _ _ hkey]
            constructor
            · intro f hf
              rcases hrest with ⟨hsome, _⟩
              rw [hsome f hf, hval_key]
            · intro hf
              rcases hrest with ⟨_, hnone⟩
              rw [hnone hf, hmid_key]

/-! Characterizations of the `validate_dict` pre-checks. -/

theorem requiredCheck_none_iff (s : Schema) (d : Dict) :
    requiredCheck s d = Option.none ↔ ∀ k ∈ requiredKeys s, k ∈ keysS d := by
  unfold requiredCheck
  by_cases hreq : (requiredKeys s).isEmpty
  · rw [if_pos hreq]
    have : requiredKeys s = [] := List.isEmpty_iff.mp hreq
    simp [this]
  · rw [if_neg hreq]
    unfold verifyDictKeys
    simp only [Bool.false_eq_true, if_false]
    by_cases hall : (requiredKeys s).all (fun k => smem (keysS d) k)
    · rw [if_pos hall]
      simp only [List.all_eq_true] at hall
      simp only [true_iff]
      intro k hk
      exact (smem_iff _ _).mp (hall k hk)
    · rw [if_neg hall]
      simp only [List.all_eq_true] at hall
      constructor
      · intro h; exact absurd h (by simp)
      · intro h
        exact absurd (fun k hk => (smem_iff _ _).mpr (h k hk)) hall

theorem unexpectedCheck_none_iff (s : Schema) (d : Dict) :
    unexpectedCheck s d = Option.none ↔ ∀ k ∈ keysS d, k ∈ keysS s := by
  unfold unexpectedCheck
  by_cases hemp : ((keysS d).filter (fun k => !smem (keysS s) k)).isEmpty
  · rw [if_pos hemp]
    rw [List.isEmpty_iff, List.filter_eq_nil_iff] at hemp
    simp only [true_iff]
    intro k hk
    have h1 := hemp k hk
    simp only [Bool.not_eq_true'] at h1
    have h2 : smem (keysS s) k = true := by
      cases hb : smem (keysS s) k
      · exact absurd hb h1
      · rfl
    exact (smem_iff _ _).mp h2
  · rw [if_neg hemp]
    rw [List.isEmpty_iff, List.filter_eq_nil_iff] at hemp
    push_neg at hemp
    constructor
    · intro h; exact absurd h (by simp)
    · intro h
      rcases hemp with ⟨k, hk, hsk⟩
      simp only [Bool.not_eq_false, Bool.not_eq_true'] at hsk
      have : smem (keysS s) k = true := (smem_iff _ _).mpr (h k hk)
      rw [this] at hsk
      exact absurd hsk (by simp)

theorem dictItems_mem (s : Schema) (d : Dict) (p : String × KeySpec) :
    p ∈ dictItems s d ↔ p ∈ s ∧ p.1 ∈ keysS d := by
  unfold dictItems
  rw [List.mem_filter]
  constructor
  · rintro ⟨hp, hsome⟩
    exact ⟨hp, (lookupS_isSome_iff _ _).mp hsome⟩
  · rintro ⟨hp, hkey⟩
    exact ⟨hp, (lookupS_isSome_iff _ _).mpr hkey⟩

theorem dictItems_nodup (s : Schema) (d : Dict) (hs : (keysS s).Nodup) :
    ((dictItems s d).map Prod.fst).Nodup := by
  have hsub : List.Sublist ((dictItems s d).map Prod.fst) (s.map Prod.fst) :=
    List.Sublist.map Prod.fst (List.filter_sublist s)
  exact hs.sublist hsub

/-- Success of `validate_dict` on a dictionary payload: either the schema is
empty (no further validation at all), or all three checks pass. -/
theorem validateDict_success_iff (reg : Registry) (d : Dict) (s : Schema)
    (hs : (keysS s).Nodup) :
    (∃ d1, validateDict reg (PyVal.dict d) s = Except.ok (d1, Option.none)) ↔
      (s = [] ∨
        (requiredCheck s d = Option.none ∧ unexpectedCheck s d = Option.none ∧
          ∀ p ∈ dictItems s d,
            (validateDictItem reg p.1 p.2 d).2 = Except.ok Option.none)) := by
  by_cases hse : s.isEmpty
  · have hnil : s = [] := List.isEmpty_iff.mp hse
    subst hnil
    simp [validateDict]
  · have hne : ¬ s = [] := by
      intro hh; rw [hh] at hse; exact hse (by simp)
    simp only [validateDict]
    rw [if_neg hse]
    cases hreq : requiredCheck s d with
    | some m =>
      simp only [hne, false_or, hreq]
      constructor
      · rintro ⟨d1, hd1⟩
        simp at hd1
      · rintro ⟨h1, _⟩
        exact absurd h1 (by simp)
    | none =>
      cases hunex : unexpectedCheck s d with
      | some m =>
        simp only [hne, false_or, hunex]
        constructor
        · rintro ⟨d1, hd1⟩
          simp at hd1
        · rintro ⟨_, h2, _⟩
          exact absurd h2 (by simp)
      | none =>
        have hloop := loop_success_iff reg (dictItems s d) d (dictItems_nodup s d hs)
        cases hrun : validateItemsLoop reg (dictItems s d) d with
        | error e =>
          simp only [hne, false_or]
          constructor
          · rintro ⟨d1, hd1⟩
            simp at hd1
          · rintro ⟨_, _, h3⟩
            rcases hloop.mpr h3 with ⟨d2, hd2⟩
            rw [hrun] at hd2
            exact absurd hd2 (by simp)
        | ok p =>
          obtain ⟨d2, r⟩ := p
          cases r with
          | some m =>
            simp only [hne, false_or]
            constructor
            · rintro ⟨d1, hd1⟩
              simp at hd1
            · rintro ⟨_, _, h3⟩
              rcases hloop.mpr h3 with ⟨d3, hd3⟩
              rw [hrun] at hd3
              have h4 : (some m : Option String) = Option.none := by
                injection hd3 with h5
                exact congrArg Prod.snd h5
              exact absurd h4 (by simp)
          | none =>
            simp only [hne, false_or]
            constructor
            · rintro ⟨d1, hd1⟩
              exact ⟨by trivial, by trivial, hloop.mp ⟨d2, hrun⟩⟩
            · rintro ⟨_, _, h3⟩
              exact ⟨PyVal.dict d2, rfl⟩

/-! Python set semantics: equality on hashable values is an equivalence,
so `len(set(xs)) == len(xs)` exactly when no two elements compare equal. -/

/-- Canonical key of a hashable value (`hash(True) == hash(1)` and
`True == 1` in Python). -/
def hkey : PyVal → PyVal
  | PyVal.bool b => PyVal.int (if b then 1 else 0)
  | v => v

theorem pyEq_hashable_iff (a b : PyVal) (ha : pyHashable a = true)
    (hb : pyHashable b = true) : pyEq a b = true ↔ hkey a = hkey b := by
  cases a <;> cases b <;>
    simp_all [pyEq, pyHashable, hkey, PyVal.int.injEq, PyVal.str.injEq, beq_iff_eq]
  rename_i b1 b2
  cases b1 <;> cases b2 <;> simp

/-- A list with no two elements equal in Python's sense. -/
def PyDistinct (xs : List PyVal) : Prop :=
  List.Pairwise (fun a b => pyEq a b = false) xs

theorem mem_dedupPy (z : PyVal) (l : List PyVal) (h : z ∈ dedupPy l) : z ∈ l := by
  induction l with
  | nil => exact absurd h (by simp [dedupPy])
  | cons x rest ih =>
    by_cases hm : pyMemB x (dedupPy rest)
    · rw [dedupPy, if_pos hm] at h
      exact List.mem_cons_of_mem _ (ih h)
    · rw [dedupPy, if_neg hm] at h
      rcases List.mem_cons.mp h with hz | hz
      · exact hz ▸ List.mem_cons_self _ _
      · exact List.mem_cons_of_mem _ (ih hz)

theorem dedupPy_length_le (l : List PyVal) : (dedupPy l).length ≤ l.length := by
  induction l with
  | nil => simp [dedupPy]
  | cons x rest ih =>
    by_cases hm : pyMemB x (dedupPy rest)
    · rw [dedupPy, if_pos hm]
      exact Nat.le_succ_of_le ih
    · rw [dedupPy, if_neg hm]
      exact Nat.succ_le_succ ih

theorem pyMemB_iff (x : PyVal) (l : List PyVal) :
    pyMemB x l = true ↔ ∃ y ∈ l, pyEq x y = true := by
  simp [pyMemB, List.any_eq_true]

theorem mem_dedupPy_rep (l : List PyVal) (hh : ∀ y ∈ l, pyHashable y = true) :
    ∀ y ∈ l, ∃ z ∈ dedupPy l, pyEq y z = true := by
  induction l with
  | nil => intro y hy; exact absurd hy (by simp)
  | cons x rest ih =>
    have hhx : pyHashable x = true := hh x (List.mem_cons_self _ _)
    have hhr : ∀ y ∈ rest, pyHashable y = true :=
      fun y hy => hh y (List.mem_cons_of_mem _ hy)
    intro y hy
    rcases List.mem_cons.mp hy with hyx | hyr
    · by_cases hm : pyMemB x (dedupPy rest)
      · rw [dedupPy, if_pos hm]
        rcases (pyMemB_iff _ _).mp hm with ⟨z, hz, hxz⟩
        refine ⟨z, hz, ?_⟩
        rw [hyx]
        exact hxz
      · rw [dedupPy, if_neg hm]
        refine ⟨x, List.mem_cons_self _ _, ?_⟩
        rw [hyx]
        exact (pyEq_hashable_iff x x hhx hhx).mpr rfl
    · rcases ih hhr y hyr with ⟨z, hz, hyz⟩
      by_cases hm : pyMemB x (dedupPy rest)
      · rw [dedupPy, if_pos hm]
        exact ⟨z, hz, hyz⟩
      · rw [dedupPy, if_neg hm]
        exact ⟨z, List.mem_cons_of_mem _ hz, hyz⟩

theorem dedupPy_length_iff (xs : List PyVal) (hh : ∀ y ∈ xs, pyHashable y = true) :
    (dedupPy xs).length = xs.length ↔ PyDistinct xs := by
  induction xs with
  | nil => simp [dedupPy, PyDistinct]
  | cons x rest ih =>
    have hhx : pyHashable x = true := hh x (List.mem_cons_self _ _)
    have hhr : ∀ y ∈ rest, pyHashable y = true :=
      fun y hy => hh y (List.mem_cons_of_mem _ hy)
    by_cases hm : pyMemB x (dedupPy rest)
    · rw [dedupPy, if_pos hm]
      have hlt : (dedupPy rest).length < (x :: rest).length :=
        Nat.lt_succ_of_le (dedupPy_length_le rest)
      constructor
      · intro hlen
        exact absurd hlen (Nat.ne_of_lt hlt)
      · intro hdist
        rcases (pyMemB_iff _ _).mp hm with ⟨z, hz, hxz⟩
        have hzr : z ∈ rest := mem_dedupPy z rest hz
        have hxz_false : pyEq x z = false := (List.pairwise_cons.mp hdist).1 z hzr
        rw [hxz] at hxz_false
        exact absurd hxz_false (by simp)
    · rw [dedupPy, if_neg hm]
      simp only [List.length_cons, Nat.succ_inj]
      rw [ih hhr]
      unfold PyDistinct
      rw [List.pairwise_cons]
      constructor
      · intro hdist
        refine ⟨?_, hdist⟩
        intro y hy
        cases hb : pyEq x y
        · rfl
        · rcases mem_dedupPy_rep rest hhr y hy with ⟨z, hz, hyz⟩
          have hhy : pyHashable y = true := hhr y hy
          have hhz : pyHashable z = true := hhr z (mem_dedupPy z rest hz)
          have hxy : hkey x = hkey y := (pyEq_hashable_iff x y hhx hhy).mp hb
          have hyz' : hkey y = hkey z := (pyEq_hashable_iff y z hhy hhz).mp hyz
          have hxz : pyEq x z = true :=
            (pyEq_hashable_iff x z hhx hhz).mpr (hxy.trans hyz')
          exact absurd ((pyMemB_iff _ _).mpr ⟨z, hz, hxz⟩) hm
      · rintro ⟨_, hdist⟩
        exact hdist

/-! The element loop of `_validate_list_of_items`. -/

theorem listLoop_ok_iff (itemV : PyVal → VRes) (xs : List PyVal) :
    listLoop itemV xs = Except.ok Option.none ↔
      ∀ y ∈ xs, itemV y = Except.ok Option.none := by
  induction xs with
  | nil => simp [listLoop]
  | cons x rest ih =>
    cases hx : itemV x with
    | error e =>
      simp only [listLoop, hx]
      constructor
      · intro h; exact absurd h (by simp)
      · intro h
        have := h x (List.mem_cons_self _ _)
        rw [hx] at this
        exact absurd this (by simp)
    | ok m =>
      cases m with
      | some msg =>
        simp only [listLoop, hx]
        constructor
        · intro h; exact absurd h (by simp)
        · intro h
          have := h x (List.mem_cons_self _ _)
          rw [hx] at this
          exact absurd this (by simp)
      | none =>
        simp only [listLoop, hx]
        rw [ih]
        constructor
        · intro h y hy
          rcases List.mem_cons.mp hy with hyx | hyr
          · rw [hyx]; exact hx
          · exact h y hyr
        · intro h y hy
          exact h y (List.mem_cons_of_mem _ hy)

theorem listLoop_first_failure (itemV : PyVal → VRes) (ys zs : List PyVal)
    (x : PyVal) (m : String) (hys : ∀ y ∈ ys, itemV y = Except.ok Option.none)
    (hx : itemV x = Except.ok (some m)) :
    listLoop itemV (ys ++ x :: zs) = Except.ok (some m) := by
  induction ys with
  | nil =>
    simp only [List.nil_append, listLoop, hx]
  | cons y rest ih =>
    have hy : itemV y = Except.ok Option.none := hys y (List.mem_cons_self _ _)
    simp only [List.cons_append, listLoop, hy]
    exact ih (fun y' hy' => hys y' (List.mem_cons_of_mem _ hy'))

theorem pySet_ok (xs : List PyVal) (hh : ∀ y ∈ xs, pyHashable y = true) :
    pySet xs = Except.ok (dedupPy xs) := by
  unfold pySet
  have hfind : xs.find? (fun y => !pyHashable y) = Option.none := by
    rw [List.find?_eq_none]
    intro y hy
    simp [hh y hy]
  rw [hfind]

theorem pyJoinAux_all_str (xs : List PyVal) (i : Nat)
    (hstr : ∀ y ∈ xs, ∃ s, y = PyVal.str s) :
    ∃ ss, pyJoinAux i xs = Except.ok ss := by
  induction xs generalizing i with
  | nil => exact ⟨[], rfl⟩
  | cons x rest ih =>
    rcases hstr x (List.mem_cons_self _ _) with ⟨s, hs⟩
    subst hs
    rcases ih (i + 1) (fun y hy => hstr y (List.mem_cons_of_mem _ hy)) with ⟨ss, hss⟩
    exact ⟨s :: ss, by simp [pyJoinAux, hss]⟩

theorem pyJoinComma_all_str (xs : List PyVal)
    (hstr : ∀ y ∈ xs, ∃ s, y = PyVal.str s) :
    ∃ j, pyJoinComma xs = Except.ok j := by
  rcases pyJoinAux_all_str xs 0 hstr with ⟨ss, hss⟩
  exact ⟨String.intercalate (", ") ss, by simp [pyJoinComma, hss]⟩

/-! Claim theorems. -/

/-- C7: `validate_range` is inclusive on both bounds and treats the `None`
sentinel bound as imposing no constraint: 5 is accepted in `[None, 10]`, 0 and
10 are accepted in `[0, 10]`, -1 is rejected with the too-small message and 11
with the too-large message. -/
theorem c7_validate_range_boundaries :
    validate_range (PyVal.int 5) (PyVal.list [PyVal.none, PyVal.int 10]) =
        Except.ok Option.none ∧
    validate_range (PyVal.int 0) (PyVal.list [PyVal.int 0, PyVal.int 10]) =
        Except.ok Option.none ∧
    validate_range (PyVal.int 10) (PyVal.list [PyVal.int 0, PyVal.int 10]) =
        Except.ok Option.none ∧
    validate_range (PyVal.int (-1)) (PyVal.list [PyVal.int 0, PyVal.int 10]) =
        Except.ok (some ("'-1' is too small - must be at least '0'")) ∧
    validate_range (PyVal.int 11) (PyVal.list [PyVal.int 0, PyVal.int 10]) =
        Except.ok (some ("'11' is too large - must be no larger than '10'")) :=
  ⟨rfl, rfl, rfl, rfl, rfl⟩

/-- C9 counterexample: a one-element `valid_values` list supports indexing at
position 0 but not at position 1, yet `validate_range` raises `IndexError`
there, not the `TypeError` the claim asserts for every constraint that cannot
be indexed at positions 0 and 1. -/
theorem c9_counterexample :
    validate_range (PyVal.int 5) (PyVal.list [PyVal.int 0]) =
        Except.error (PyExc.indexError ("list index out of range")) ∧
    ∀ m, validate_range (PyVal.int 5) (PyVal.list [PyVal.int 0]) ≠
        Except.error (PyExc.typeError m) := by
  have base : validate_range (PyVal.int 5) (PyVal.list [PyVal.int 0]) =
      Except.error (PyExc.indexError ("list index out of range")) := rfl
  refine ⟨base, ?_⟩
  intro m h
  rw [base] at h
  injection h with h1
  exact PyExc.noConfusion h1

/-- C9 (amended): for every data value, `validate_range` with
`valid_values=None` raises `TypeError` before any check of the data, and with
a one-element list it raises `IndexError`, likewise before any check of the
data (both results are independent of `data`). -/
theorem c9_amended (data : PyVal) :
    validate_range data PyVal.none =
        Except.error (PyExc.typeError ("'NoneType' object is not subscriptable")) ∧
    validate_range data (PyVal.list [PyVal.int 0]) =
        Except.error (PyExc.indexError ("list index out of range")) :=
  ⟨rfl, rfl⟩

/-- C9 witness: the amended statement at the concrete data value 5. -/
theorem c9_witness :
    validate_range (PyVal.int 5) PyVal.none =
        Except.error (PyExc.typeError ("'NoneType' object is not subscriptable")) ∧
    validate_range (PyVal.int 5) (PyVal.list [PyVal.int 0]) =
        Except.error (PyExc.indexError ("list index out of range")) :=
  c9_amended (PyVal.int 5)

/-- C4: `"9"` and `"10"` are both valid ports and 9 < 10 numerically, yet
`validate_port_range_or_none` rejects `"9:10"`, because the source compares
the substrings lexically (`ports[0] > ports[1]` on strings) — contradicting
its own docstring ("two ints ... with a colon between them") and its error
message ("first port ... must be lower than the second port"). -/
theorem c4_port_range_lexical_bug :
    validate_port_range_or_none (PyVal.str ("9:10")) PyVal.none =
        Except.ok (some ("First port in a port range must be lower than the second port.")) ∧
    is_valid_port ("9") = true ∧ is_valid_port ("10") = true ∧ (9 : Int) < 10 :=
  ⟨rfl, rfl, rfl, by norm_num⟩

/-- C2 counterexample: a key spec naming the unregistered tag `type:foo`
makes `validate_dict` return the failure message
`Validator 'type:foo' does not exist.` — it is not raised as a fault
(`_validate_dict_item` catches the registry `KeyError` and returns the
message). -/
theorem c2_counterexample :
    validateDict builtinRegSample (PyVal.dict [("a", PyVal.int 1)])
        [("a", [("type:foo", KVal.pv PyVal.none)])] =
      Except.ok (PyVal.dict [("a", PyVal.int 1)],
        some ("Validator 'type:foo' does not exist.")) ∧
    ∀ e, validateDict builtinRegSample (PyVal.dict [("a", PyVal.int 1)])
        [("a", [("type:foo", KVal.pv PyVal.none)])] ≠ Except.error e := by
  have base : validateDict builtinRegSample (PyVal.dict [("a", PyVal.int 1)])
      [("a", [("type:foo", KVal.pv PyVal.none)])] =
      Except.ok (PyVal.dict [("a", PyVal.int 1)],
        some ("Validator 'type:foo' does not exist.")) := rfl
  refine ⟨base, ?_⟩
  intro e h
  rw [base] at h
  exact Except.noConfusion h

/-- C2 (amended): an unregistered validator tag named by the first `type:`
entry of a present key's spec surfaces as the returned failure message
`Validator '<tag>' does not exist.`, not as a raised fault. -/
theorem c2_unregistered_tag_returns_message (reg : Registry) (key : String)
    (spec : KeySpec) (d : Dict) (k : String) (kv : KVal) (value : PyVal)
    (hft : firstType spec = some (k, kv))
    (hreg : lookupS reg k = Option.none)
    (hconv : lookupS spec ("convert_to") = Option.none) :
    validateDictItem reg key spec d =
      (d, Except.ok (some ("Validator '" ++ k ++ "' does not exist."))) ∧
    validateDict reg (PyVal.dict [(key, value)]) [(key, spec)] =
      Except.ok (PyVal.dict [(key, value)],
        some ("Validator '" ++ k ++ "' does not exist.")) := by
  have hitem : ∀ e : Dict, validateDictItem reg key spec e =
      (e, Except.ok (some ("Validator '" ++ k ++ "' does not exist."))) := by
    intro e
    have hfst : (validateDictItem reg key spec e).1 = e := by
      rw [validateDictItem_fst]
      have hsc : specConv spec = Option.none := by simp [specConv, hconv]
      rw [hsc]
    have hsnd : (validateDictItem reg key spec e).2 =
        Except.ok (some ("Validator '" ++ k ++ "' does not exist.")) := by
      rw [validateDictItem_snd]
      simp [itemRes, convRes, hconv, hft, hreg]
    cases hv : validateDictItem reg key spec e with
    | mk a b =>
      rw [hv] at hfst hsnd
      exact Prod.ext hfst hsnd
  refine ⟨hitem d, ?_⟩
  have hreqc : requiredCheck [(key, spec)] [(key, value)] = Option.none := by
    rw [requiredCheck_none_iff]
    intro k2 hk2
    unfold requiredKeys at hk2
    rcases List.mem_map.mp hk2 with ⟨q, hq, hqk⟩
    have hq1 : q ∈ [(key, spec)] := (List.mem_filter.mp hq).1
    have hq2 : q = (key, spec) := by simpa using hq1
    rw [← hqk, hq2]
    simp [keysS]
  have hunex : unexpectedCheck [(key, spec)] [(key, value)] = Option.none := by
    rw [unexpectedCheck_none_iff]
    intro k2 hk2
    simp [keysS] at hk2 ⊢
    exact hk2
  have hitems : dictItems [(key, spec)] [(key, value)] = [(key, spec)] := by
    simp [dictItems, List.filter_cons, lookupS]
  have hloop : validateItemsLoop reg (dictItems [(key, spec)] [(key, value)])
      [(key, value)] = Except.ok ([(key, value)],
        some ("Validator '" ++ k ++ "' does not exist.")) := by
    rw [hitems]
    simp only [validateItemsLoop, hitem [(key, value)]]
  simp only [validateDict]
  rw [if_neg (by simp)]
  rw [hreqc, hunex]
  simp only [hloop]

/-- C2 witness: the amended statement at a concrete unregistered tag. -/
theorem c2_witness :
    validateDictItem builtinRegSample ("a") [("type:foo", KVal.pv PyVal.none)]
        [("a", PyVal.int 1)] =
      ([("a", PyVal.int 1)],
        Except.ok (some ("Validator 'type:foo' does not exist."))) :=
  (c2_unregistered_tag_returns_message builtinRegSample ("a")
    [("type:foo", KVal.pv PyVal.none)] [("a", PyVal.int 1)]
    ("type:foo") (KVal.pv PyVal.none) (PyVal.int 1) rfl rfl rfl).1

/-- C3: after a successful `add_validator` call, re-registering a validator
with identical source under the same tag is a no-op that returns the registry
unchanged, while registering one with different source fails with the
`KeyError` conflict (`Validator type <tag> is already defined`) and produces
no new registry. -/
theorem c3_add_validator_idempotent_or_conflict (reg reg2 : Registry)
    (tag : String) (v v2 : PyFunc)
    (h : add_validator reg tag v = Except.ok reg2) :
    (v2.src = v.src → add_validator reg2 tag v2 = Except.ok reg2) ∧
    (v2.src ≠ v.src →
      add_validator reg2 tag v2 =
        Except.error (PyExc.keyError
          ("Validator type " ++ tag ++ " is already defined"))) := by
  have hlook : ∃ w : PyFunc, lookupS reg2 (_to_validation_type tag) = some w ∧
      w.src = v.src := by
    cases he : lookupS reg (_to_validation_type tag) with
    | some existing =>
      simp only [add_validator, he] at h
      by_cases hsrc : v.src = existing.src
      · rw [if_neg (by simp [hsrc])] at h
        have hr : reg2 = reg := by
          injection h with h1
          exact h1.symm
        subst hr
        exact ⟨existing, he, hsrc.symm⟩
      · rw [if_pos hsrc] at h
        exact absurd h (by simp)
    | none =>
      simp only [add_validator, he] at h
      have hr : reg2 = reg ++ [(_to_validation_type tag, v)] := by
        injection h with h1
        exact h1.symm
      subst hr
      exact ⟨v, lookupS_append_single reg _ v he, rfl⟩
  rcases hlook with ⟨w, hw, hws⟩
  constructor
  · intro hsame
    simp only [add_validator, hw]
    rw [if_neg (by simp [hsame, hws])]
  · intro hdiff
    simp only [add_validator, hw]
    rw [if_pos (by rw [hws]; exact hdiff)]

/-- C3 witness: registering a concrete validator into the empty registry and
re-registering the identical source is a no-op. -/
theorem c3_witness :
    add_validator [("type:my_type",
        ⟨"def my_validator(data, valid_values=None): return None",
          fun _ _ => Except.ok Option.none⟩)] ("my_type")
      ⟨"def my_validator(data, valid_values=None): return None",
        fun _ _ => Except.ok Option.none⟩ =
    Except.ok [("type:my_type",
      ⟨"def my_validator(data, valid_values=None): return None",
        fun _ _ => Except.ok Option.none⟩)] :=
  (c3_add_validator_idempotent_or_conflict [] _ ("my_type")
    ⟨"def my_validator(data, valid_values=None): return None",
      fun _ _ => Except.ok Option.none⟩
    ⟨"def my_validator(data, valid_values=None): return None",
      fun _ _ => Except.ok Option.none⟩ rfl).1 rfl

/-- C1 counterexample: with the empty schema and the non-empty payload
`\x7b"a": 1\x7d`, `validate_dict` succeeds (the `if not key_specs` short
circuit), although the key `"a"` is absent from the schema — so the claimed
iff fails in exactly the empty-schema case it singles out. -/
theorem c1_counterexample :
    ¬ ((∃ d1, validateDict builtinRegSample (PyVal.dict [("a", PyVal.int 1)]) [] =
          Except.ok (d1, Option.none)) ↔
        ((∀ k ∈ requiredKeys ([] : Schema), k ∈ keysS ([("a", PyVal.int 1)] : Dict)) ∧
         (∀ k ∈ keysS ([("a", PyVal.int 1)] : Dict), k ∈ keysS ([] : Schema)) ∧
         (∀ p ∈ ([] : Schema), p.1 ∈ keysS ([("a", PyVal.int 1)] : Dict) →
           (validateDictItem builtinRegSample p.1 p.2 [("a", PyVal.int 1)]).2 =
             Except.ok Option.none))) := by
  intro h
  have hsucc : ∃ d1, validateDict builtinRegSample (PyVal.dict [("a", PyVal.int 1)]) [] =
      Except.ok (d1, Option.none) :=
    ⟨PyVal.dict [("a", PyVal.int 1)], rfl⟩
  have hrhs := h.mp hsucc
  have hmem : ("a" : String) ∈ keysS ([] : Schema) :=
    hrhs.2.1 ("a") (by simp [keysS])
  simp [keysS] at hmem

/-- C1 (amended): for a dictionary payload and a schema with distinct keys,
`validate_dict` succeeds iff the schema is empty (unconditional success), or
every required key is present, no payload key is absent from the schema, and
for every schema key present in the payload the item validation (conversion
followed by the dispatched validator on the converted value) succeeds. -/
theorem c1_validate_dict_iff (reg : Registry) (d : Dict) (s : Schema)
    (hs : (keysS s).Nodup) :
    (∃ d1, validateDict reg (PyVal.dict d) s = Except.ok (d1, Option.none)) ↔
      (s = [] ∨
        ((∀ k ∈ requiredKeys s, k ∈ keysS d) ∧
         (∀ k ∈ keysS d, k ∈ keysS s) ∧
         (∀ p ∈ s, p.1 ∈ keysS d →
           (validateDictItem reg p.1 p.2 d).2 = Except.ok Option.none))) := by
  rw [validateDict_success_iff reg d s hs]
  constructor
  · rintro (h | ⟨h1, h2, h3⟩)
    · exact Or.inl h
    · refine Or.inr ⟨(requiredCheck_none_iff s d).mp h1,
        (unexpectedCheck_none_iff s d).mp h2, ?_⟩
      intro p hp hk
      exact h3 p ((dictItems_mem s d p).mpr ⟨hp, hk⟩)
  · rintro (h | ⟨h1, h2, h3⟩)
    · exact Or.inl h
    · refine Or.inr ⟨(requiredCheck_none_iff s d).mpr h1,
        (unexpectedCheck_none_iff s d).mpr h2, ?_⟩
      intro p hp
      rcases (dictItems_mem s d p).mp hp with ⟨hps, hpk⟩
      exact h3 p hps hpk

/-- C1 witness: the amended iff at a concrete payload and schema. -/
theorem c1_witness :
    (∃ d1, validateDict builtinRegSample (PyVal.dict [("a", PyVal.str ("x"))])
        [("a", [("type:string", KVal.pv PyVal.none)])] =
      Except.ok (d1, Option.none)) ↔
      (([("a", [("type:string", KVal.pv PyVal.none)])] : Schema) = [] ∨
        ((∀ k ∈ requiredKeys ([("a", [("type:string", KVal.pv PyVal.none)])] : Schema),
            k ∈ keysS ([("a", PyVal.str ("x"))] : Dict)) ∧
         (∀ k ∈ keysS ([("a", PyVal.str ("x"))] : Dict),
            k ∈ keysS ([("a", [("type:string", KVal.pv PyVal.none)])] : Schema)) ∧
         (∀ p ∈ ([("a", [("type:string", KVal.pv PyVal.none)])] : Schema),
            p.1 ∈ keysS ([("a", PyVal.str ("x"))] : Dict) →
            (validateDictItem builtinRegSample p.1 p.2 [("a", PyVal.str ("x"))]).2 =
              Except.ok Option.none))) :=
  c1_validate_dict_iff builtinRegSample [("a", PyVal.str ("x"))]
    [("a", [("type:string", KVal.pv PyVal.none)])] (by simp [keysS])

theorem validateDict_success_loop (reg : Registry) (d : Dict) (s : Schema) (d1 : Dict)
    (h : validateDict reg (PyVal.dict d) s = Except.ok (PyVal.dict d1, Option.none)) :
    (s = [] ∧ d1 = d) ∨
      validateItemsLoop reg (dictItems s d) d = Except.ok (d1, Option.none) := by
  by_cases hse : s.isEmpty
  · left
    refine ⟨List.isEmpty_iff.mp hse, ?_⟩
    simp only [validateDict] at h
    rw [if_pos hse] at h
    injection h with h1
    have h2 := congrArg Prod.fst h1
    simp only at h2
    injection h2 with h3
    exact h3.symm
  · right
    simp only [validateDict] at h
    rw [if_neg hse] at h
    cases hreq : requiredCheck s d with
    | some m =>
      rw [hreq] at h
      simp only at h
      exact absurd h (by simp)
    | none =>
      rw [hreq] at h
      simp only at h
      cases hunex : unexpectedCheck s d with
      | some m =>
        rw [hunex] at h
        simp only at h
        exact absurd h (by simp)
      | none =>
        rw [hunex] at h
        simp only at h
        cases hrun : validateItemsLoop reg (dictItems s d) d with
        | error e =>
          rw [hrun] at h
          simp only at h
          exact absurd h (by simp)
        | ok p =>
          obtain ⟨d2, r⟩ := p
          rw [hrun] at h
          simp only at h
          injection h with h1
          have h2 := congrArg Prod.fst h1
          have h3 := congrArg Prod.snd h1
          simp only at h2 h3
          injection h2 with h4
          rw [h4, h3]

theorem itemsConv_dictItems (s : Schema) (d : Dict) (hs : (keysS s).Nodup)
    (p : String × KeySpec) (hp : p ∈ s) (hk : p.1 ∈ keysS d) :
    itemsConv (dictItems s d) p.1 = specConv p.2 := by
  induction s with
  | nil => exact absurd hp (by simp)
  | cons q rest ih =>
    have hq_not : q.1 ∉ keysS rest := by
      have := hs
      rw [show keysS (q :: rest) = q.1 :: keysS rest from rfl] at this
      exact (List.nodup_cons.mp this).1
    have hnd' : (keysS rest).Nodup := by
      have := hs
      rw [show keysS (q :: rest) = q.1 :: keysS rest from rfl] at this
      exact (List.nodup_cons.mp this).2
    have hfilter : dictItems (q :: rest) d =
        if (lookupS d q.1).isSome then q :: dictItems rest d else dictItems rest d := by
      simp [dictItems, List.filter_cons]
    rcases List.mem_cons.mp hp with hpq | hpr
    · subst hpq
      have hq_some : (lookupS d p.1).isSome := (lookupS_isSome_iff d p.1).mpr hk
      rw [hfilter, if_pos hq_some]
      obtain ⟨k0, spec0⟩ := p
      exact itemsConv_cons_self k0 spec0 (dictItems rest d)
    · have hne : q.1 ≠ p.1 := by
        intro hh
        exact hq_not (hh ▸ List.mem_map_of_mem Prod.fst hpr)
      rw [hfilter]
      by_cases hq_some : (lookupS d q.1).isSome
      · rw [if_pos hq_some]
        obtain ⟨k0, spec0⟩ := q
        rw [itemsConv_cons_ne k0 p.1 spec0 (dictItems rest d) hne]
        exact ih hnd' hpr
      · rw [if_neg hq_some]
        exact ih hnd' hpr

/-- C6: a declared conversion function replaces `payload[key]` with
`convert_to(payload[key])` before the key's validator runs and regardless of
that validator's outcome (first conjunct, the dictionary component of
`_validate_dict_item`); and after a successful `validate_dict` call,
`payload[key]` equals `convert_to(original value)` for converted keys while
keys without a conversion are unchanged (second conjunct). -/
theorem c6_conversion_roundtrip (reg : Registry) (d : Dict) (s : Schema)
    (hs : (keysS s).Nodup) :
    (∀ (key : String) (spec : KeySpec) (e : Dict) (f : PyVal → PyVal),
        lookupS spec ("convert_to") = some (KVal.fn f) →
        (validateDictItem reg key spec e).1 = setS e key (f (dgetD e key))) ∧
    (∀ d1 : Dict,
        validateDict reg (PyVal.dict d) s = Except.ok (PyVal.dict d1, Option.none) →
        ∀ p ∈ s, p.1 ∈ keysS d →
          (∀ f, specConv p.2 = some f →
            lookupS d1 p.1 = some (f (dgetD d p.1))) ∧
          (specConv p.2 = Option.none → lookupS d1 p.1 = lookupS d p.1)) := by
  constructor
  · intro key spec e f hf
    rw [validateDictItem_fst]
    have hsc : specConv spec = some f := by simp [specConv, hf]
    rw [hsc]
  · intro d1 h p hp hk
    rcases validateDict_success_loop reg d s d1 h with ⟨hnil, hd1⟩ | hloop
    · subst hnil
      exact absurd hp (by simp)
    · have hfinal := loop_final reg (dictItems s d) d d1
        (dictItems_nodup s d hs) hloop p.1
      have hconv_eq : itemsConv (dictItems s d) p.1 = specConv p.2 :=
        itemsConv_dictItems s d hs p hp hk
      rw [hconv_eq] at hfinal
      exact hfinal

/-- C6 witness: a concrete conversion (`convert` to the constant integer 7)
is reflected in the payload after a successful `validate_dict`. -/
theorem c6_witness :
    lookupS ([("a", PyVal.int 7)] : Dict) ("a") =
      some ((fun _ => PyVal.int 7) (dgetD [("a", PyVal.str ("x"))] ("a"))) :=
  ((c6_conversion_roundtrip builtinRegSample [("a", PyVal.str ("x"))]
      [("a", [("convert_to", KVal.fn (fun _ => PyVal.int 7))])] (by simp [keysS])).2
    [("a", PyVal.int 7)] rfl ("a", [("convert_to", KVal.fn (fun _ => PyVal.int 7))])
    (by simp) (by simp [keysS])).1 (fun _ => PyVal.int 7) rfl

/-- The value a key spec's conversion produces (identity when no conversion
function is declared). -/
def convApplied (spec : KeySpec) (v : PyVal) : PyVal :=
  match specConv spec with
  | some f => f v
  | Option.none => v

theorem convRes_ok (spec : KeySpec) (v : PyVal)
    (hconv : lookupS spec ("convert_to") = Option.none ∨
      ∃ f, lookupS spec ("convert_to") = some (KVal.fn f)) :
    convRes spec v = Except.ok (convApplied spec v) := by
  rcases hconv with hc | ⟨f, hc⟩ <;>
    simp [convRes, convApplied, specConv, hc]

/-- C10: when a key spec has no `type:`-prefixed entry, `_validate_dict_item`
performs no validation (success, with any declared conversion still applied);
when it has one, the dispatched behaviour is fully determined by the *first*
such entry; and consequently `validate_dict` accepts every value for a key
whose spec has no `type:` entry. -/
theorem c10_first_type_entry_dispatch (reg : Registry) (key : String)
    (spec : KeySpec) (d : Dict) (value : PyVal)
    (hconv : lookupS spec ("convert_to") = Option.none ∨
      ∃ f, lookupS spec ("convert_to") = some (KVal.fn f)) :
    (firstType spec = Option.none →
      (validateDictItem reg key spec d).2 = Except.ok Option.none) ∧
    (∀ k kv, firstType spec = some (k, kv) →
      (validateDictItem reg key spec d).2 =
        (match lookupS reg k with
         | Option.none => Except.ok (some ("Validator '" ++ k ++ "' does not exist."))
         | some pf => pf.fn (convApplied spec (dgetD d key)) (kparam kv))) ∧
    (firstType spec = Option.none → lookupS spec ("convert_to") = Option.none →
      validateDict reg (PyVal.dict [(key, value)]) [(key, spec)] =
        Except.ok (PyVal.dict [(key, value)], Option.none)) := by
  have hcr : convRes spec (dgetD d key) =
      Except.ok (convApplied spec (dgetD d key)) := convRes_ok spec _ hconv
  refine ⟨?_, ?_, ?_⟩
  · intro hft
    rw [validateDictItem_snd]
    simp only [itemRes, hcr, hft]
  · intro k kv hft
    rw [validateDictItem_snd]
    simp only [itemRes, hcr, hft]
  · intro hft hc2
    have hsc : specConv spec = Option.none := by simp [specConv, hc2]
    have hfst : (validateDictItem reg key spec [(key, value)]).1 = [(key, value)] := by
      rw [validateDictItem_fst, hsc]
    have hsnd : (validateDictItem reg key spec [(key, value)]).2 =
        Except.ok Option.none := by
      rw [validateDictItem_snd]
      simp only [itemRes, convRes, hc2, hft]
    have hitem : validateDictItem reg key spec [(key, value)] =
        ([(key, value)], Except.ok Option.none) := by
      cases hv : validateDictItem reg key spec [(key, value)] with
      | mk a b =>
        rw [hv] at hfst hsnd
        exact Prod.ext hfst hsnd
    have hreq : requiredCheck [(key, spec)] [(key, value)] = Option.none := by
      rw [requiredCheck_none_iff]
      intro k hk
      unfold requiredKeys at hk
      rcases List.mem_map.mp hk with ⟨q, hq, hqk⟩
      have hq1 : q ∈ [(key, spec)] := (List.mem_filter.mp hq).1
      have hq2 : q = (key, spec) := by simpa using hq1
      rw [← hqk, hq2]
      simp [keysS]
    have hunex : unexpectedCheck [(key, spec)] [(key, value)] = Option.none := by
      rw [unexpectedCheck_none_iff]
      intro k hk
      simp [keysS] at hk ⊢
      exact hk
    have hitems : dictItems [(key, spec)] [(key, value)] = [(key, spec)] := by
      simp [dictItems, List.filter_cons, lookupS]
    have hloop : validateItemsLoop reg (dictItems [(key, spec)] [(key, value)])
        [(key, value)] = Except.ok ([(key, value)], Option.none) := by
      rw [hitems]
      simp only [validateItemsLoop, hitem]
    simp only [validateDict]
    rw [if_neg (by simp)]
    rw [hreq, hunex]
    simp only [hloop]

/-- C10 witness: a spec with a `required` flag and a non-`type:` entry but no
`type:` entry accepts an arbitrary string value. -/
theorem c10_witness :
    validateDict builtinRegSample (PyVal.dict [("a", PyVal.str ("zz"))])
        [("a", [("required", KVal.pv (PyVal.bool true))])] =
      Except.ok (PyVal.dict [("a", PyVal.str ("zz"))], Option.none) :=
  (c10_first_type_entry_dispatch builtinRegSample ("a")
      [("required", KVal.pv (PyVal.bool true))] [] (PyVal.str ("zz"))
      (Or.inl rfl)).2.2 rfl rfl

/-- C5 counterexample: the duplicate-free list `[[]]` contains an unhashable
element, so `len(set(data))` in `_validate_list_of_items` raises `TypeError`
before the item validator ever runs — the combinator does not return the
first element failure (`validate_uuid` would have returned a message). -/
theorem c5_counterexample :
    validate_uuid_list (PyVal.list [PyVal.list []]) PyVal.none =
        Except.error (PyExc.typeError ("unhashable type: 'list'")) ∧
    validate_uuid (PyVal.list []) PyVal.none =
        Except.ok (some ("'[]' is not a valid UUID")) :=
  ⟨rfl, rfl⟩

/-- C5 (amended): the list-of-unique-items combinator fails on non-lists with
the not-a-list message; does not succeed on any list containing two elements
that compare equal (regardless of the item validator); on a duplicate-free
list of hashable elements it returns the first element failure in list order,
succeeding exactly when the item validator succeeds on every element; and on
a list containing an unhashable element it raises `TypeError` instead of
consulting the item validator. -/
theorem c5_list_of_items_spec (itemV : PyVal → VRes) :
    (∀ v : PyVal, (∀ xs, v ≠ PyVal.list xs) →
        listOfItems itemV v =
          Except.ok (some ("'" ++ pyStr v ++ "' is not a list"))) ∧
    (∀ xs : List PyVal, ¬ PyDistinct xs →
        listOfItems itemV (PyVal.list xs) ≠ Except.ok Option.none) ∧
    (∀ (ys zs : List PyVal) (x : PyVal) (m : String),
        PyDistinct (ys ++ x :: zs) →
        (∀ y ∈ ys ++ x :: zs, pyHashable y = true) →
        (∀ y ∈ ys, itemV y = Except.ok Option.none) →
        itemV x = Except.ok (some m) →
        listOfItems itemV (PyVal.list (ys ++ x :: zs)) = Except.ok (some m)) ∧
    (∀ xs : List PyVal, PyDistinct xs → (∀ y ∈ xs, pyHashable y = true) →
        (listOfItems itemV (PyVal.list xs) = Except.ok Option.none ↔
          ∀ y ∈ xs, itemV y = Except.ok Option.none)) ∧
    (∀ (xs : List PyVal) (y : PyVal),
        xs.find? (fun z => !pyHashable z) = some y →
        listOfItems itemV (PyVal.list xs) =
          Except.error (PyExc.typeError ("unhashable type: '" ++ pyTypeName y ++ "'"))) := by
  have hdistinct_loop : ∀ xs : List PyVal, PyDistinct xs →
      (∀ y ∈ xs, pyHashable y = true) →
      listOfItems itemV (PyVal.list xs) = listLoop itemV xs := by
    intro xs hdist hh
    have hset : pySet xs = Except.ok (dedupPy xs) := pySet_ok xs hh
    have hlen : (dedupPy xs).length = xs.length :=
      (dedupPy_length_iff xs hh).mpr hdist
    simp only [listOfItems, hset]
    rw [if_neg (by simp [hlen])]
  refine ⟨?_, ?_, ?_, ?_, ?_⟩
  · intro v hv
    cases v with
    | list xs => exact absurd rfl (hv xs)
    | none => rfl
    | bool b => rfl
    | int n => rfl
    | str s => rfl
    | dict es => rfl
  · intro xs hdup
    cases hfind : xs.find? (fun y => !pyHashable y) with
    | some y =>
      have hset : pySet xs =
          Except.error (PyExc.typeError ("unhashable type: '" ++ pyTypeName y ++ "'")) := by
        simp [pySet, hfind]
      simp only [listOfItems, hset]
      intro h
      exact absurd h (by simp)
    | none =>
      have hh : ∀ y ∈ xs, pyHashable y = true := by
        intro y hy
        have := List.find?_eq_none.mp hfind y hy
        simp at this
        exact this
      have hset : pySet xs = Except.ok (dedupPy xs) := pySet_ok xs hh
      have hlen : (dedupPy xs).length ≠ xs.length := by
        intro hl
        exact hdup ((dedupPy_length_iff xs hh).mp hl)
      simp only [listOfItems, hset]
      rw [if_pos (by simp [hlen])]
      cases hjoin : pyJoinComma xs with
      | error e => intro h; exact absurd h (by simp)
      | ok j => intro h; exact absurd h (by simp)
  · intro ys zs x m hdist hh hys hx
    rw [hdistinct_loop _ hdist hh]
    exact listLoop_first_failure itemV ys zs x m hys hx
  · intro xs hdist hh
    rw [hdistinct_loop _ hdist hh]
    exact listLoop_ok_iff itemV xs
  · intro xs y hfind
    have hset : pySet xs =
        Except.error (PyExc.typeError ("unhashable type: '" ++ pyTypeName y ++ "'")) := by
      simp [pySet, hfind]
    simp only [listOfItems, hset]

/-- C5 witness: the string-item combinator on a duplicate-free list reports
the first failing element (`3` is not a string). -/
theorem c5_witness :
    listOfItems (fun x => validate_string x PyVal.none)
        (PyVal.list [PyVal.str ("a"), PyVal.int 3, PyVal.str ("b")]) =
      Except.ok (some ("'3' is not a valid string")) :=
  (c5_list_of_items_spec (fun x => validate_string x PyVal.none)).2.2.1
    [PyVal.str ("a")] [PyVal.str ("b")] (PyVal.int 3)
    ("'3' is not a valid string")
    (by unfold PyDistinct; decide)
    (by decide)
    (by
      intro y hy
      rcases List.mem_singleton.mp hy with rfl
      rfl)
    rfl

theorem listLoop_no_error (itemV : PyVal → VRes) (xs : List PyVal)
    (h : ∀ y ∈ xs, ∀ e, itemV y ≠ Except.error e) :
    ∀ e, listLoop itemV xs ≠ Except.error e := by
  induction xs with
  | nil => intro e he; exact absurd he (by simp [listLoop])
  | cons x rest ih =>
    intro e he
    cases hx : itemV x with
    | error e2 => exact h x (List.mem_cons_self _ _) e2 hx
    | ok m =>
      cases m with
      | some msg =>
        simp only [listLoop, hx] at he
        exact absurd he (by simp)
      | none =>
        simp only [listLoop, hx] at he
        exact ih (fun y hy => h y (List.mem_cons_of_mem _ hy)) e he

/-- C8 counterexample: `validate_uuid_list` (a registered validator, tag
`type:uuid_list`) raises `TypeError` on the invalid data `[1, 1]` — the
duplicate check's `', '.join(data)` fails on non-string items — instead of
returning a failure message. -/
theorem c8_counterexample :
    validate_uuid_list (PyVal.list [PyVal.int 1, PyVal.int 1]) PyVal.none =
        Except.error (PyExc.typeError ("sequence item 0: expected str instance")) ∧
    ∀ m, validate_uuid_list (PyVal.list [PyVal.int 1, PyVal.int 1]) PyVal.none ≠
        Except.ok (some m) := by
  have base : validate_uuid_list (PyVal.list [PyVal.int 1, PyVal.int 1]) PyVal.none =
      Except.error (PyExc.typeError ("sequence item 0: expected str instance")) := rfl
  refine ⟨base, ?_⟩
  intro m h
  rw [base] at h
  exact Except.noConfusion h

/-- C8 (amended): the list combinator can raise `TypeError` on invalid data
(unhashable elements, or duplicates among non-string elements); it returns
messages rather than raising whenever the data is not a list, or is a list of
strings on which the item validator itself never raises. -/
theorem c8_messages_for_string_lists (itemV : PyVal → VRes) (v : PyVal)
    (hstr : ∀ xs, v = PyVal.list xs → ∀ y ∈ xs, ∃ s, y = PyVal.str s)
    (hitem : ∀ xs, v = PyVal.list xs → ∀ y ∈ xs, ∀ e, itemV y ≠ Except.error e) :
    ∀ e, listOfItems itemV v ≠ Except.error e := by
  cases v with
  | list xs =>
    have hstr' := hstr xs rfl
    have hitem' := hitem xs rfl
    have hh : ∀ y ∈ xs, pyHashable y = true := by
      intro y hy
      rcases hstr' y hy with ⟨s, hs⟩
      rw [hs]
      rfl
    have hset : pySet xs = Except.ok (dedupPy xs) := pySet_ok xs hh
    intro e he
    simp only [listOfItems, hset] at he
    by_cases hlen : (dedupPy xs).length ≠ xs.length
    · rw [if_pos (by simp [hlen])] at he
      rcases pyJoinComma_all_str xs hstr' with ⟨j, hj⟩
      rw [hj] at he
      exact absurd he (by simp)
    · rw [if_neg (by simpa using hlen)] at he
      exact listLoop_no_error itemV xs hitem' e he
  | none => intro e he; exact absurd he (by simp [listOfItems])
  | bool b => intro e he; exact absurd he (by simp [listOfItems])
  | int n => intro e he; exact absurd he (by simp [listOfItems])
  | str s => intro e he; exact absurd he (by simp [listOfItems])
  | dict es => intro e he; exact absurd he (by simp [listOfItems])

/-- C8 witness: on a duplicate list of strings the combinator returns the
duplicate message rather than raising. -/
theorem c8_witness :
    listOfItems (fun x => validate_string x PyVal.none)
        (PyVal.list [PyVal.str ("a"), PyVal.str ("a")]) ≠
      Except.error (PyExc.typeError ("unhashable type: 'list'")) :=
  c8_messages_for_string_lists (fun x => validate_string x PyVal.none)
    (PyVal.list [PyVal.str ("a"), PyVal.str ("a")])
    (by
      intro xs hxs y hy
      injection hxs with h1
      rw [← h1] at hy
      rcases List.mem_cons.mp hy with rfl | hy2
      · exact ⟨"a", rfl⟩
      · rcases List.mem_singleton.mp hy2 with rfl
        exact ⟨"a", rfl⟩)
    (by
      intro xs hxs y hy e he
      injection hxs with h1
      rw [← h1] at hy
      rcases List.mem_cons.mp hy with rfl | hy2
      · exact Except.noConfusion he
      · rcases List.mem_singleton.mp hy2 with rfl
        exact Except.noConfusion he)
    (PyExc.typeError ("unhashable type: 'list'"))

end NeutronValidators
